import Mathlib

/-!
Shallow embedding of the visualization-placement core of `src/app.js`
(PlacementAlgo): rectangle intersection, candidate generation, candidate
scoring, best-candidate selection, exponential position smoothing, and
stale-position cleanup.  Pixel coordinates and times are embedded as exact
rationals/integers (JS numbers on the inputs exercised here are exact in
binary floating point except for `Math.sqrt`, which is embedded as the exact
`Real.sqrt`).  JS `Math.round` is `⌊q + 1/2⌋` (round half toward +∞).
The mutable globals `previousVisualizationPositions` and
`positionTransitions` are embedded as an explicit state record passed to and
returned from the state-mutating functions.
-/

namespace PlacementAlgo

open Classical

/-- A rectangle `\x7bx, y, width, height\x7d` in canvas pixel coordinates. -/
structure Rect where
  x : ℚ
  y : ℚ
  width : ℚ
  height : ℚ
deriving DecidableEq

/-- A detected physical object (hand) for the current frame.  The field
`ref` models JS object identity: each object allocated by
`drawHandDetections` is a distinct reference, and the source's
`otherPhysicalObject !== physicalObject` check compares references, not
field values. -/
structure PhysObject where
  ref : ℕ
  id : String
  x : ℚ
  y : ℚ
  width : ℚ
  height : ℚ
deriving DecidableEq

/-- The rectangle fields of a physical object, as read by
`calculateIntersectionArea`. -/
def PhysObject.toRect (o : PhysObject) : Rect :=
  ⟨o.x, o.y, o.width, o.height⟩

/-- The per-frame obstacle collections `allDetectedObjects`. -/
structure AllObjects where
  faces : List Rect
  physicalObjects : List PhysObject
  visualizations : List Rect
deriving DecidableEq

/-- A position `\x7bx, y\x7d`. -/
structure Pos where
  x : ℚ
  y : ℚ
deriving DecidableEq

/-- An entry of `previousVisualizationPositions`:
`\x7bx, y, lastSeen\x7d`. -/
structure PrevPos where
  x : ℚ
  y : ℚ
  lastSeen : ℤ
deriving DecidableEq

/-- An entry of `positionTransitions`:
`\x7btargetX, targetY, currentX, currentY\x7d`. -/
structure Transition where
  targetX : ℚ
  targetY : ℚ
  currentX : ℚ
  currentY : ℚ
deriving DecidableEq

/-- The two position-memory globals of `app.js`, embedded as maps keyed by
the stabilization key (the hand id string). -/
structure MemState where
  previousVisualizationPositions : String → Option PrevPos
  positionTransitions : String → Option Transition

/-- The initial memory state (both objects empty, as set on start). -/
def emptyMemState : MemState :=
  ⟨fun _ => none, fun _ => none⟩

/-- The `stabilizationConfig` constant of `app.js`. -/
structure StabilizationConfig where
  hysteresisThreshold : ℚ
  previousPositionBonus : ℚ
  smoothingFactor : ℚ
  positionMemoryTimeout : ℤ

/-- Values from the source: threshold 200, bonus 150, factor 0.2,
timeout 1000 ms. -/
def stabilizationConfig : StabilizationConfig :=
  ⟨200, 150, 1/5, 1000⟩

/-- The `visualizationConfig` constant of `app.js`: marker size 100×160. -/
structure VisualizationConfig where
  width : ℚ
  height : ℚ

/-- Values from the source. -/
def visualizationConfig : VisualizationConfig :=
  ⟨100, 160⟩

/-- JS `Math.round`: round half toward +∞. -/
def jsRound (q : ℚ) : ℤ :=
  ⌊q + 1/2⌋

/-- One exponential-smoothing step:
`current + (target - current) * smoothingFactor`. -/
def lerpStep (current target : ℚ) : ℚ :=
  current + (target - current) * stabilizationConfig.smoothingFactor

/-- The transition record after the create-or-update block of
`stabilizeVisualizationPosition` (source lines 421-432): when no transition
exists it is seeded with `current := prevPos`, `target := newPosition`;
otherwise only the target is replaced. -/
def updatedTransition (prevPos : PrevPos) (told : Option Transition)
    (newPosition : Pos) : Transition :=
  match told with
  | none => ⟨newPosition.x, newPosition.y, prevPos.x, prevPos.y⟩
  | some t => ⟨newPosition.x, newPosition.y, t.currentX, t.currentY⟩

/-- `stabilizeVisualizationPosition(objectId, newPosition)` from `app.js`
(lines 404-452), with the implicit globals and `Date.now()` made explicit.
On first appearance it records the raw position and returns it unchanged;
afterwards it lerps the transition current toward the new target, stores the
unrounded current (with refreshed `lastSeen`) into
`previousVisualizationPositions`, and returns the rounded current. -/
def stabilizeVisualizationPosition (s : MemState) (objectId : String)
    (newPosition : Pos) (currentTime : ℤ) : Pos × MemState :=
  match s.previousVisualizationPositions objectId with
  | none =>
      (newPosition,
       { s with previousVisualizationPositions := fun k =>
           if k = objectId then some ⟨newPosition.x, newPosition.y, currentTime⟩
           else s.previousVisualizationPositions k })
  | some prevPos =>
      let transition := updatedTransition prevPos (s.positionTransitions objectId) newPosition
      let currentX := transition.currentX +
        (transition.targetX - transition.currentX) * stabilizationConfig.smoothingFactor
      let currentY := transition.currentY +
        (transition.targetY - transition.currentY) * stabilizationConfig.smoothingFactor
      (⟨(jsRound currentX : ℚ), (jsRound currentY : ℚ)⟩,
       { previousVisualizationPositions := fun k =>
           if k = objectId then some ⟨currentX, currentY, currentTime⟩
           else s.previousVisualizationPositions k,
         positionTransitions := fun k =>
           if k = objectId then some ⟨transition.targetX, transition.targetY, currentX, currentY⟩
           else s.positionTransitions k })

/-- `cleanStalePhysicalObjectPositions(seenPhysicalObjectIds)` from `app.js`
(lines 200-216).  The source iterates over a snapshot of
`Object.keys(previousVisualizationPositions)` and, for each key not seen
this frame whose elapsed time strictly exceeds the timeout, deletes both the
position-memory entry and the transition entry; this per-key effect is
embedded pointwise.  A transition entry whose key has no position-memory
entry is never touched, because the loop ranges over position-memory keys
only. -/
def cleanStalePhysicalObjectPositions (s : MemState)
    (seenPhysicalObjectIds : List String) (currentTime : ℤ) : MemState :=
  { previousVisualizationPositions := fun objectId =>
      match s.previousVisualizationPositions objectId with
      | none => none
      | some entry =>
          if seenPhysicalObjectIds.contains objectId = false ∧
              currentTime - entry.lastSeen > stabilizationConfig.positionMemoryTimeout then
            none
          else some entry,
    positionTransitions := fun objectId =>
      match s.previousVisualizationPositions objectId with
      | none => s.positionTransitions objectId
      | some entry =>
          if seenPhysicalObjectIds.contains objectId = false ∧
              currentTime - entry.lastSeen > stabilizationConfig.positionMemoryTimeout then
            none
          else s.positionTransitions objectId }

/-- `calculateIntersectionArea(rect1, rect2)` from `app.js` (lines
455-462): the axis-aligned overlap area, clamped to be non-negative. -/
def calculateIntersectionArea (rect1 rect2 : Rect) : ℚ :=
  let xOverlap := max 0 (min (rect1.x + rect1.width) (rect2.x + rect2.width) -
    max rect1.x rect2.x)
  let yOverlap := max 0 (min (rect1.y + rect1.height) (rect2.y + rect2.height) -
    max rect1.y rect2.y)
  xOverlap * yOverlap

/-- The fixed list of eight named candidate positions from
`findOptimalVisualizationPosition` (source lines 467-476), each a top-left
offset from the physical object by a 10 px margin. -/
def candidatePositions (visualizationWidth visualizationHeight : ℚ)
    (h : PhysObject) : List (String × Pos) :=
  [ ("right", ⟨h.x + h.width + 10, h.y + h.height/2 - visualizationHeight/2⟩),
    ("left", ⟨h.x - visualizationWidth - 10, h.y + h.height/2 - visualizationHeight/2⟩),
    ("top", ⟨h.x + h.width/2 - visualizationWidth/2, h.y - visualizationHeight - 10⟩),
    ("bottom", ⟨h.x + h.width/2 - visualizationWidth/2, h.y + h.height + 10⟩),
    ("topRight", ⟨h.x + h.width + 10, h.y - visualizationHeight - 10⟩),
    ("topLeft", ⟨h.x - visualizationWidth - 10, h.y - visualizationHeight - 10⟩),
    ("bottomRight", ⟨h.x + h.width + 10, h.y + h.height + 10⟩),
    ("bottomLeft", ⟨h.x - visualizationWidth - 10, h.y + h.height + 10⟩) ]

/-- The score of one candidate, from the body of the `map` in
`findOptimalVisualizationPosition` (source lines 482-549): out-of-bounds
candidates get the sentinel −1000 immediately; otherwise the score starts at
0, subtracts 10× each face overlap, 5× each overlap with a physical object
other than (by reference) the one being placed, 5× each overlap with an
already-placed visualization, subtracts 0.1× the center-to-center Euclidean
distance, adds 100 when the candidate is named `top`, and adds the
`previousPositionBonus` (150) when a previous position exists within a
strict 50 px Euclidean radius of the candidate's top-left. -/
noncomputable def scorePosition (physicalObject : PhysObject)
    (visualizationWidth visualizationHeight : ℚ) (allObjects : AllObjects)
    (canvasWidth canvasHeight : ℚ) (prevPosition : Option PrevPos)
    (name : String) (p : Pos) : ℝ :=
  let visualization : Rect := ⟨p.x, p.y, visualizationWidth, visualizationHeight⟩
  if visualization.x < 0 ∨ visualization.y < 0 ∨
      visualization.x + visualization.width > canvasWidth ∨
      visualization.y + visualization.height > canvasHeight then
    -1000
  else
    let s0 : ℝ := 0
    let s1 := allObjects.faces.foldl
      (fun s face => s - (calculateIntersectionArea visualization face : ℝ) * 10) s0
    let s2 := allObjects.physicalObjects.foldl
      (fun s otherPhysicalObject =>
        if otherPhysicalObject.ref ≠ physicalObject.ref then
          s - (calculateIntersectionArea visualization otherPhysicalObject.toRect : ℝ) * 5
        else s) s1
    let s3 := allObjects.visualizations.foldl
      (fun s otherVisualization =>
        s - (calculateIntersectionArea visualization otherVisualization : ℝ) * 5) s2
    let physicalObjectCenterX : ℚ := physicalObject.x + physicalObject.width/2
    let physicalObjectCenterY : ℚ := physicalObject.y + physicalObject.height/2
    let visualizationCenterX : ℚ := visualization.x + visualization.width/2
    let visualizationCenterY : ℚ := visualization.y + visualization.height/2
    let distance : ℝ := Real.sqrt
      (((physicalObjectCenterX : ℝ) - (visualizationCenterX : ℝ))^2 +
       ((physicalObjectCenterY : ℝ) - (visualizationCenterY : ℝ))^2)
    let s4 := s3 - distance * 0.1
    let s5 := if name = "top" then s4 + 100 else s4
    match prevPosition with
    | none => s5
    | some prevPos =>
        let distanceToPrev : ℝ := Real.sqrt
          (((visualization.x : ℝ) - (prevPos.x : ℝ))^2 +
           ((visualization.y : ℝ) - (prevPos.y : ℝ))^2)
        if distanceToPrev < 50 then
          s5 + (stabilizationConfig.previousPositionBonus : ℝ)
        else s5

/-- One element of the `positionScores` array: candidate name, its rectangle,
and its score. -/
structure ScoredPosition where
  position : String
  visualization : Rect
  score : ℝ

/-- The `positionScores` array (source lines 482-550): all eight candidates
scored. -/
noncomputable def positionScores (prevPosition : Option PrevPos)
    (physicalObject : PhysObject) (visualizationWidth visualizationHeight : ℚ)
    (allObjects : AllObjects) (canvasWidth canvasHeight : ℚ) :
    List ScoredPosition :=
  (candidatePositions visualizationWidth visualizationHeight physicalObject).map
    fun pos =>
      ⟨pos.1, ⟨pos.2.x, pos.2.y, visualizationWidth, visualizationHeight⟩,
       scorePosition physicalObject visualizationWidth visualizationHeight
         allObjects canvasWidth canvasHeight prevPosition pos.1 pos.2⟩

/-- The effect of `positionScores.sort((a, b) => b.score - a.score)` followed
by taking element `[0]`: a stable descending sort puts the earliest candidate
of maximal score first, so we fold keeping the accumulator on ties. -/
noncomputable def selectBest : ScoredPosition → List ScoredPosition → ScoredPosition
  | best, [] => best
  | best, c :: rest => selectBest (if c.score > best.score then c else best) rest

/-- `findOptimalVisualizationPosition` from `app.js` (lines 465-557).  The
source reads the global `previousVisualizationPositions[physicalObject.id]`,
scores the eight candidates, sorts descending, and returns
`bestPosition.visualization` unconditionally — there is no score-threshold
check, so with the eight-element candidate list the result is always `some`
rectangle. -/
noncomputable def findOptimalVisualizationPosition
    (previousVisualizationPositions : String → Option PrevPos)
    (physicalObject : PhysObject) (visualizationWidth visualizationHeight : ℚ)
    (allObjects : AllObjects) (canvasWidth canvasHeight : ℚ) : Option Rect :=
  let prevPosition := previousVisualizationPositions physicalObject.id
  match positionScores prevPosition physicalObject visualizationWidth
      visualizationHeight allObjects canvasWidth canvasHeight with
  | [] => none
  | best :: rest => some (selectBest best rest).visualization

/-- The call of `findOptimalVisualizationPosition` as it occurs inside the
frame pass (source lines 346-353), with the globals threaded explicitly: the
function only reads the memory state and the obstacle collections, so the
call returns them as they were. -/
noncomputable def findOptimalVisualizationPositionCall (s : MemState)
    (physicalObject : PhysObject) (visualizationWidth visualizationHeight : ℚ)
    (allObjects : AllObjects) (canvasWidth canvasHeight : ℚ) :
    Option Rect × MemState × AllObjects :=
  (findOptimalVisualizationPosition s.previousVisualizationPositions
     physicalObject visualizationWidth visualizationHeight allObjects
     canvasWidth canvasHeight,
   s, allObjects)

/-- The per-hand placement tail of `drawHandDetections` (source lines
345-399): compute the optimal position; if one was found, stabilize it, draw
it, and append it to this frame's `visualizations` obstacle list.  Because
`findOptimalVisualizationPosition` always returns a rectangle, the skip
branch is never taken. -/
noncomputable def placeVisualizationForHand (s : MemState)
    (visualizations : List Rect) (hand : PhysObject) (allObjects : AllObjects)
    (canvasWidth canvasHeight : ℚ) (currentTime : ℤ) : List Rect × MemState :=
  match findOptimalVisualizationPosition s.previousVisualizationPositions hand
      visualizationConfig.width visualizationConfig.height allObjects
      canvasWidth canvasHeight with
  | none => (visualizations, s)
  | some visualizationPosition =>
      let r := stabilizeVisualizationPosition s hand.id
        ⟨visualizationPosition.x, visualizationPosition.y⟩ currentTime
      (visualizations ++
        [⟨r.1.x, r.1.y, visualizationConfig.width, visualizationConfig.height⟩],
       r.2)

/-- Memory states reachable from empty memory by any sequence of
`stabilizeVisualizationPosition` and `cleanStalePhysicalObjectPositions`
calls. -/
inductive Reachable : MemState → Prop
  | empty : Reachable emptyMemState
  | stabilize (s : MemState) (k : String) (p : Pos) (t : ℤ) :
      Reachable s → Reachable (stabilizeVisualizationPosition s k p t).2
  | clean (s : MemState) (seen : List String) (t : ℤ) :
      Reachable s → Reachable (cleanStalePhysicalObjectPositions s seen t)

/-- Repeated stabilization with a fixed target: `stabilizeRunN s k T t n` is
the result (returned position and state) of the `(n+1)`-th call. -/
def stabilizeRunN (s : MemState) (k : String) (T : Pos) (t : ℤ) :
    ℕ → Pos × MemState
  | 0 => stabilizeVisualizationPosition s k T t
  | n + 1 => stabilizeVisualizationPosition (stabilizeRunN s k T t n).2 k T t

/-- Iterated lerp toward a fixed target. -/
def lerpIter (c target : ℚ) : ℕ → ℚ
  | 0 => c
  | n + 1 => lerpStep (lerpIter c target n) target

/-- Concrete memory state used to exercise the tracking branch: key `a` has
a position-memory entry at the origin and a transition entry at the
origin. -/
def trackingExState : MemState :=
  ⟨fun k => if k = "a" then some ⟨0, 0, 0⟩ else none,
   fun k => if k = "a" then some ⟨0, 0, 0, 0⟩ else none⟩

/-- The hand of the C9 scenario: a 50×50 box at `(100, 100)`. -/
def handC9 : PhysObject := ⟨0, "Left_0", 100, 100, 50, 50⟩

/-- The obstacle set of the C9 scenario: no faces, no visualizations, the
hand itself the only physical object. -/
def allC9 : AllObjects := ⟨[], [handC9], []⟩

/-- A 30×30 hand at the origin; with a 100×160 marker on a 100×100 canvas
every candidate is out of bounds. -/
def handC3 : PhysObject := ⟨0, "Left_0", 0, 0, 30, 30⟩

/-- The obstacle set for the all-out-of-bounds scenario. -/
def allC3 : AllObjects := ⟨[], [handC3], []⟩

/-- C8: for a key with no existing position-memory entry,
`stabilizeVisualizationPosition(key, P)` returns exactly `P` (no smoothing,
no rounding) and creates the entry `\x7bx: P.x, y: P.y, lastSeen: now\x7d`. -/
theorem c8_first_appearance (s : MemState) (k : String) (P : Pos) (t : ℤ)
    (h : s.previousVisualizationPositions k = none) :
    (stabilizeVisualizationPosition s k P t).1 = P ∧
    (stabilizeVisualizationPosition s k P t).2.previousVisualizationPositions k =
      some ⟨P.x, P.y, t⟩ := by
  simp [stabilizeVisualizationPosition, h]

/-- Witness for C8 at a concrete non-integer position, showing the returned
position is not even rounded. -/
theorem c8_first_appearance_witness :
    emptyMemState.previousVisualizationPositions "Left_0" = none ∧
    ((stabilizeVisualizationPosition emptyMemState "Left_0" ⟨7/2, -4⟩ 17).1 = ⟨7/2, -4⟩ ∧
     (stabilizeVisualizationPosition emptyMemState "Left_0"
        ⟨7/2, -4⟩ 17).2.previousVisualizationPositions "Left_0" = some ⟨7/2, -4, 17⟩) :=
  ⟨rfl, c8_first_appearance emptyMemState "Left_0" ⟨7/2, -4⟩ 17 rfl⟩

/-- C7 (amended): on a tracking-state call (the key already has a
position-memory entry), `stabilizeVisualizationPosition` stores the
unrounded smoothed position into `previousVisualizationPositions` together
with the refreshed `lastSeen`, while the returned position is the rounded
smoothed position. -/
theorem c7_tracking_store (s : MemState) (k : String) (T : Pos) (t : ℤ)
    (pp : PrevPos) (h : s.previousVisualizationPositions k = some pp) :
    (stabilizeVisualizationPosition s k T t).2.previousVisualizationPositions k =
      some ⟨lerpStep (updatedTransition pp (s.positionTransitions k) T).currentX T.x,
            lerpStep (updatedTransition pp (s.positionTransitions k) T).currentY T.y,
            t⟩ ∧
    (stabilizeVisualizationPosition s k T t).1 =
      ⟨(jsRound (lerpStep (updatedTransition pp (s.positionTransitions k) T).currentX T.x) : ℚ),
       (jsRound (lerpStep (updatedTransition pp (s.positionTransitions k) T).currentY T.y) : ℚ)⟩ := by
  cases htr : s.positionTransitions k <;>
    simp [stabilizeVisualizationPosition, h, htr, updatedTransition, lerpStep]

/-- Witness for C7's amended statement at a concrete tracking state. -/
theorem c7_tracking_store_witness :
    trackingExState.previousVisualizationPositions "a" = some ⟨0, 0, 0⟩ ∧
    ((stabilizeVisualizationPosition trackingExState "a"
        ⟨1, 0⟩ 5).2.previousVisualizationPositions "a" =
      some ⟨lerpStep (updatedTransition ⟨0, 0, 0⟩
              (trackingExState.positionTransitions "a") ⟨1, 0⟩).currentX 1,
            lerpStep (updatedTransition ⟨0, 0, 0⟩
              (trackingExState.positionTransitions "a") ⟨1, 0⟩).currentY 0,
            5⟩ ∧
     (stabilizeVisualizationPosition trackingExState "a" ⟨1, 0⟩ 5).1 =
      ⟨(jsRound (lerpStep (updatedTransition ⟨0, 0, 0⟩
          (trackingExState.positionTransitions "a") ⟨1, 0⟩).currentX 1) : ℚ),
       (jsRound (lerpStep (updatedTransition ⟨0, 0, 0⟩
          (trackingExState.positionTransitions "a") ⟨1, 0⟩).currentY 0) : ℚ)⟩) :=
  ⟨rfl, c7_tracking_store trackingExState "a" ⟨1, 0⟩ 5 ⟨0, 0, 0⟩ rfl⟩

/-- C7 counterexample: on a tracking call from current `(0,0)` toward target
`(1,0)`, the stored position-memory entry is the unrounded `(1/5, 0)`, the
returned position is the rounded `(0, 0)`, and the stored entry does not
equal the returned integer-rounded values — refuting the claim that the
rounded position is written into position memory. -/
theorem c7_counterexample :
    (stabilizeVisualizationPosition trackingExState "a"
       ⟨1, 0⟩ 5).2.previousVisualizationPositions "a" = some ⟨1/5, 0, 5⟩ ∧
    (stabilizeVisualizationPosition trackingExState "a" ⟨1, 0⟩ 5).1 = ⟨0, 0⟩ ∧
    ¬ ((stabilizeVisualizationPosition trackingExState "a"
          ⟨1, 0⟩ 5).2.previousVisualizationPositions "a" =
        some ⟨(stabilizeVisualizationPosition trackingExState "a" ⟨1, 0⟩ 5).1.x,
              (stabilizeVisualizationPosition trackingExState "a" ⟨1, 0⟩ 5).1.y,
              5⟩) := by
  have h1 : (stabilizeVisualizationPosition trackingExState "a"
      ⟨1, 0⟩ 5).2.previousVisualizationPositions "a" = some ⟨1/5, 0, 5⟩ := by
    simp [stabilizeVisualizationPosition, trackingExState, updatedTransition,
      stabilizationConfig]
  have h2 : (stabilizeVisualizationPosition trackingExState "a" ⟨1, 0⟩ 5).1 =
      ⟨0, 0⟩ := by
    simp [stabilizeVisualizationPosition, trackingExState, updatedTransition,
      stabilizationConfig, jsRound]
    norm_num
  refine ⟨h1, h2, ?_⟩
  rw [h1, h2]
  simp

/-- C5: the cleanup pass deletes the position-memory entry and the
transition entry of a key if and only if the key is absent from the seen set
and the elapsed time strictly exceeds the timeout; both entries are deleted
together; a key at exactly the timeout boundary is retained; a seen key is
retained regardless of `lastSeen`. -/
theorem c5_expiry (s : MemState) (seen : List String) (t : ℤ) (k : String)
    (e : PrevPos) (tr : Transition)
    (hp : s.previousVisualizationPositions k = some e)
    (ht : s.positionTransitions k = some tr) :
    (((cleanStalePhysicalObjectPositions s seen t).previousVisualizationPositions k = none ∧
      (cleanStalePhysicalObjectPositions s seen t).positionTransitions k = none) ↔
      (seen.contains k = false ∧
       t - e.lastSeen > stabilizationConfig.positionMemoryTimeout)) ∧
    (((cleanStalePhysicalObjectPositions s seen t).previousVisualizationPositions k = some e ∧
      (cleanStalePhysicalObjectPositions s seen t).positionTransitions k = some tr) ↔
      ¬ (seen.contains k = false ∧
         t - e.lastSeen > stabilizationConfig.positionMemoryTimeout)) ∧
    (t - e.lastSeen = stabilizationConfig.positionMemoryTimeout →
      (cleanStalePhysicalObjectPositions s seen t).previousVisualizationPositions k = some e ∧
      (cleanStalePhysicalObjectPositions s seen t).positionTransitions k = some tr) ∧
    (seen.contains k = true →
      (cleanStalePhysicalObjectPositions s seen t).previousVisualizationPositions k = some e ∧
      (cleanStalePhysicalObjectPositions s seen t).positionTransitions k = some tr) := by
  have h1 : (cleanStalePhysicalObjectPositions s seen t).previousVisualizationPositions k =
      if seen.contains k = false ∧
          t - e.lastSeen > stabilizationConfig.positionMemoryTimeout then none
      else some e := by
    simp [cleanStalePhysicalObjectPositions, hp]
  have h2 : (cleanStalePhysicalObjectPositions s seen t).positionTransitions k =
      if seen.contains k = false ∧
          t - e.lastSeen > stabilizationConfig.positionMemoryTimeout then none
      else some tr := by
    simp [cleanStalePhysicalObjectPositions, hp, ht]
  by_cases hc : seen.contains k = false ∧
      t - e.lastSeen > stabilizationConfig.positionMemoryTimeout
  · rw [h1, h2, if_pos hc, if_pos hc]
    refine ⟨iff_of_true ⟨rfl, rfl⟩ hc,
      iff_of_false (fun hcon => Option.noConfusion hcon.1) (not_not_intro hc),
      ?_, ?_⟩
    · intro hb
      rw [hb] at hc
      exact absurd hc.2 (lt_irrefl _)
    · intro hsn
      rw [hsn] at hc
      exact absurd hc.1 (by simp)
  · rw [h1, h2, if_neg hc, if_neg hc]
    exact ⟨iff_of_false (fun hcon => Option.noConfusion hcon.1) hc,
      iff_of_true ⟨rfl, rfl⟩ hc, fun _ => ⟨rfl, rfl⟩, fun _ => ⟨rfl, rfl⟩⟩

/-- Witness for C5: a key last seen at time 100, cleaned at time 2000 with
an empty seen set, satisfies the deletion condition. -/
theorem c5_expiry_witness :
    trackingExState.previousVisualizationPositions "a" = some ⟨0, 0, 0⟩ ∧
    trackingExState.positionTransitions "a" = some ⟨0, 0, 0, 0⟩ ∧
    ((((cleanStalePhysicalObjectPositions trackingExState [] 2000).previousVisualizationPositions "a" = none ∧
      (cleanStalePhysicalObjectPositions trackingExState [] 2000).positionTransitions "a" = none) ↔
      (([] : List String).contains "a" = false ∧
       (2000 : ℤ) - (0 : ℤ) > stabilizationConfig.positionMemoryTimeout)) ∧
    ((((cleanStalePhysicalObjectPositions trackingExState [] 2000).previousVisualizationPositions "a" = some ⟨0, 0, 0⟩ ∧
      (cleanStalePhysicalObjectPositions trackingExState [] 2000).positionTransitions "a" = some ⟨0, 0, 0, 0⟩) ↔
      ¬ (([] : List String).contains "a" = false ∧
         (2000 : ℤ) - (0 : ℤ) > stabilizationConfig.positionMemoryTimeout)) ∧
    ((2000 : ℤ) - (0 : ℤ) = stabilizationConfig.positionMemoryTimeout →
      (cleanStalePhysicalObjectPositions trackingExState [] 2000).previousVisualizationPositions "a" = some ⟨0, 0, 0⟩ ∧
      (cleanStalePhysicalObjectPositions trackingExState [] 2000).positionTransitions "a" = some ⟨0, 0, 0, 0⟩) ∧
    (([] : List String).contains "a" = true →
      (cleanStalePhysicalObjectPositions trackingExState [] 2000).previousVisualizationPositions "a" = some ⟨0, 0, 0⟩ ∧
      (cleanStalePhysicalObjectPositions trackingExState [] 2000).positionTransitions "a" = some ⟨0, 0, 0, 0⟩))) :=
  ⟨rfl, rfl, c5_expiry trackingExState [] 2000 "a" ⟨0, 0, 0⟩ ⟨0, 0, 0, 0⟩ rfl rfl⟩

/-- C10: a call of `findOptimalVisualizationPosition` leaves
`previousVisualizationPositions`, `positionTransitions`, and the passed
obstacle collections exactly as they were; its value is the pure function of
the read state. -/
theorem c10_no_side_effects (s : MemState) (physicalObject : PhysObject)
    (w h : ℚ) (allObjects : AllObjects) (cw ch : ℚ) :
    (findOptimalVisualizationPositionCall s physicalObject w h allObjects
        cw ch).2.1.previousVisualizationPositions = s.previousVisualizationPositions ∧
    (findOptimalVisualizationPositionCall s physicalObject w h allObjects
        cw ch).2.1.positionTransitions = s.positionTransitions ∧
    (findOptimalVisualizationPositionCall s physicalObject w h allObjects
        cw ch).2.2.faces = allObjects.faces ∧
    (findOptimalVisualizationPositionCall s physicalObject w h allObjects
        cw ch).2.2.physicalObjects = allObjects.physicalObjects ∧
    (findOptimalVisualizationPositionCall s physicalObject w h allObjects
        cw ch).2.2.visualizations = allObjects.visualizations ∧
    (findOptimalVisualizationPositionCall s physicalObject w h allObjects
        cw ch).1 = findOptimalVisualizationPosition
      s.previousVisualizationPositions physicalObject w h allObjects cw ch :=
  ⟨rfl, rfl, rfl, rfl, rfl, rfl⟩

/-- Out-of-bounds candidates take the early-return branch of the scorer. -/
theorem scorePosition_oob (physicalObject : PhysObject) (w h : ℚ)
    (allObjects : AllObjects) (cw ch : ℚ) (prevPosition : Option PrevPos)
    (name : String) (p : Pos)
    (hout : p.x < 0 ∨ p.y < 0 ∨ p.x + w > cw ∨ p.y + h > ch) :
    scorePosition physicalObject w h allObjects cw ch prevPosition name p =
      -1000 := by
  unfold scorePosition
  exact if_pos hout

/-- Subtracting a scaled term per element along a fold is subtracting the
scaled sum. -/
theorem foldl_sub_mul {α : Type*} (g : α → ℝ) (c : ℝ) :
    ∀ (l : List α) (s : ℝ),
      l.foldl (fun a x => a - g x * c) s = s - (l.map g).sum * c := by
  intro l
  induction l with
  | nil => intro s; simp
  | cons x xs ih =>
      intro s
      rw [List.foldl_cons, ih, List.map_cons, List.sum_cons]
      ring

/-- Conditionally subtracting a scaled term per element along a fold is
subtracting the scaled sum over the filtered list. -/
theorem foldl_sub_mul_if {α : Type*} (p : α → Prop) [DecidablePred p]
    (g : α → ℝ) (c : ℝ) :
    ∀ (l : List α) (s : ℝ),
      l.foldl (fun a x => if p x then a - g x * c else a) s =
        s - (((l.filter fun x => decide (p x)).map g).sum) * c := by
  intro l
  induction l with
  | nil => intro s; simp
  | cons x xs ih =>
      intro s
      rw [List.foldl_cons]
      by_cases hp : p x
      · rw [if_pos hp, ih, List.filter_cons_of_pos (by simpa using hp),
          List.map_cons, List.sum_cons]
        ring
      · rw [if_neg hp, ih, List.filter_cons_of_neg (by simpa using hp)]

/-- Closed form of the scorer on an in-bounds candidate: preference bonus,
consistency bonus, the three weighted overlap sums, and the weighted
center-to-center distance. -/
theorem scorePosition_in_bounds (physicalObject : PhysObject) (w h : ℚ)
    (allObjects : AllObjects) (cw ch : ℚ) (prevPosition : Option PrevPos)
    (name : String) (p : Pos)
    (hx : 0 ≤ p.x) (hy : 0 ≤ p.y) (hxw : p.x + w ≤ cw) (hyh : p.y + h ≤ ch) :
    scorePosition physicalObject w h allObjects cw ch prevPosition name p =
      (if name = "top" then (100 : ℝ) else 0)
      + (if ∃ pp, prevPosition = some pp ∧
            Real.sqrt (((p.x : ℝ) - (pp.x : ℝ))^2 + ((p.y : ℝ) - (pp.y : ℝ))^2) < 50
          then (150 : ℝ) else 0)
      - 10 * ((allObjects.faces.map fun face =>
          (calculateIntersectionArea ⟨p.x, p.y, w, h⟩ face : ℝ)).sum)
      - 5 * (((allObjects.physicalObjects.filter fun o =>
            decide (o.ref ≠ physicalObject.ref)).map fun o =>
          (calculateIntersectionArea ⟨p.x, p.y, w, h⟩ o.toRect : ℝ)).sum)
      - 5 * ((allObjects.visualizations.map fun v =>
          (calculateIntersectionArea ⟨p.x, p.y, w, h⟩ v : ℝ)).sum)
      - 0.1 * Real.sqrt
          ((((physicalObject.x + physicalObject.width/2 : ℚ) : ℝ) -
            ((p.x + w/2 : ℚ) : ℝ))^2 +
           (((physicalObject.y + physicalObject.height/2 : ℚ) : ℝ) -
            ((p.y + h/2 : ℚ) : ℝ))^2) := by
  have hcond : ¬(p.x < 0 ∨ p.y < 0 ∨ p.x + w > cw ∨ p.y + h > ch) := by
    push_neg
    exact ⟨hx, hy, hxw, hyh⟩
  have hbonus : ((stabilizationConfig.previousPositionBonus : ℚ) : ℝ) = 150 := by
    norm_num [stabilizationConfig]
  simp only [scorePosition]
  rw [if_neg hcond, foldl_sub_mul, foldl_sub_mul_if, foldl_sub_mul]
  cases prevPosition with
  | none =>
      rw [if_neg (show ¬ ∃ pp, (none : Option PrevPos) = some pp ∧
          Real.sqrt (((p.x : ℝ) - (pp.x : ℝ))^2 + ((p.y : ℝ) - (pp.y : ℝ))^2) < 50 by
        rintro ⟨pp, hpp, -⟩
        exact Option.noConfusion hpp)]
      split_ifs <;> ring
  | some pp =>
      simp only []
      by_cases hd : Real.sqrt (((p.x : ℝ) - (pp.x : ℝ))^2 +
          ((p.y : ℝ) - (pp.y : ℝ))^2) < 50
      · rw [if_pos hd, if_pos (show ∃ pp', some pp = some pp' ∧
            Real.sqrt (((p.x : ℝ) - (pp'.x : ℝ))^2 + ((p.y : ℝ) - (pp'.y : ℝ))^2) < 50
            from ⟨pp, rfl, hd⟩), hbonus]
        split_ifs <;> ring
      · rw [if_neg hd, if_neg (show ¬ ∃ pp', some pp = some pp' ∧
            Real.sqrt (((p.x : ℝ) - (pp'.x : ℝ))^2 + ((p.y : ℝ) - (pp'.y : ℝ))^2) < 50 by
          rintro ⟨pp', hpp', hd'⟩
          rw [Option.some_inj] at hpp'
          subst hpp'
          exact hd hd')]
        split_ifs <;> ring

/-- C1: the score of every fully in-bounds candidate is exactly the
preference bonus (100 for `top`), plus the 150 consistency bonus when a
previous position for the hand's id lies strictly within 50 px of the
candidate's top-left, minus 10× the face overlaps, minus 5× the overlaps
with other physical objects (excluded by identity), minus 5× the overlaps
with already-placed visualizations, minus 0.1× the center-to-center
Euclidean distance. -/
theorem c1_score_formula (s : MemState) (hand : PhysObject) (w h : ℚ)
    (allObjects : AllObjects) (cw ch : ℚ) (name : String) (p : Pos)
    (hx : 0 ≤ p.x) (hy : 0 ≤ p.y) (hxw : p.x + w ≤ cw) (hyh : p.y + h ≤ ch) :
    scorePosition hand w h allObjects cw ch
        (s.previousVisualizationPositions hand.id) name p =
      (if name = "top" then (100 : ℝ) else 0)
      + (if ∃ pp, s.previousVisualizationPositions hand.id = some pp ∧
            Real.sqrt (((p.x : ℝ) - (pp.x : ℝ))^2 + ((p.y : ℝ) - (pp.y : ℝ))^2) < 50
          then (150 : ℝ) else 0)
      - 10 * ((allObjects.faces.map fun face =>
          (calculateIntersectionArea ⟨p.x, p.y, w, h⟩ face : ℝ)).sum)
      - 5 * (((allObjects.physicalObjects.filter fun o =>
            decide (o.ref ≠ hand.ref)).map fun o =>
          (calculateIntersectionArea ⟨p.x, p.y, w, h⟩ o.toRect : ℝ)).sum)
      - 5 * ((allObjects.visualizations.map fun v =>
          (calculateIntersectionArea ⟨p.x, p.y, w, h⟩ v : ℝ)).sum)
      - 0.1 * Real.sqrt
          ((((hand.x + hand.width/2 : ℚ) : ℝ) - ((p.x + w/2 : ℚ) : ℝ))^2 +
           (((hand.y + hand.height/2 : ℚ) : ℝ) - ((p.y + h/2 : ℚ) : ℝ))^2) :=
  scorePosition_in_bounds hand w h allObjects cw ch
    (s.previousVisualizationPositions hand.id) name p hx hy hxw hyh

/-- C2: a candidate any part of which lies outside the canvas receives
exactly the sentinel score −1000, regardless of every other term. -/
theorem c2_out_of_bounds_sentinel (physicalObject : PhysObject) (w h : ℚ)
    (allObjects : AllObjects) (cw ch : ℚ) (prevPosition : Option PrevPos)
    (name : String) (p : Pos)
    (hout : p.x < 0 ∨ p.y < 0 ∨ p.x + w > cw ∨ p.y + h > ch) :
    scorePosition physicalObject w h allObjects cw ch prevPosition name p =
      -1000 :=
  scorePosition_oob physicalObject w h allObjects cw ch prevPosition name p hout

/-- Witness for C2: the `left` candidate of the C9 scenario, out of bounds
with `x = −10 < 0`, under a previous position within 50 px. -/
theorem c2_out_of_bounds_sentinel_witness :
    ((-10 : ℚ) < 0 ∨ (45 : ℚ) < 0 ∨ (-10 : ℚ) + 100 > 640 ∨ (45 : ℚ) + 160 > 480) ∧
    scorePosition ⟨0, "Left_0", 100, 100, 50, 50⟩ 100 160 ⟨[], [], []⟩ 640 480
      (some ⟨-10, 45, 0⟩) "left" ⟨-10, 45⟩ = -1000 :=
  ⟨Or.inl (by norm_num),
   c2_out_of_bounds_sentinel ⟨0, "Left_0", 100, 100, 50, 50⟩ 100 160
     ⟨[], [], []⟩ 640 480 (some ⟨-10, 45, 0⟩) "left" ⟨-10, 45⟩
     (Or.inl (by norm_num))⟩

/-- C6 counterexample: after a single `stabilizeVisualizationPosition` call
on a fresh key from empty memory — a reachable state — the key has a
position-memory entry but no transition entry, refuting "created
together". -/
theorem c6_counterexample :
    Reachable (stabilizeVisualizationPosition emptyMemState "a" ⟨0, 0⟩ 0).2 ∧
    ¬ ((((stabilizeVisualizationPosition emptyMemState "a"
            ⟨0, 0⟩ 0).2.positionTransitions "a").isSome) ↔
       (((stabilizeVisualizationPosition emptyMemState "a"
            ⟨0, 0⟩ 0).2.previousVisualizationPositions "a").isSome)) := by
  refine ⟨Reachable.stabilize emptyMemState "a" ⟨0, 0⟩ 0 Reachable.empty, ?_⟩
  have hp : (stabilizeVisualizationPosition emptyMemState "a"
      ⟨0, 0⟩ 0).2.previousVisualizationPositions "a" = some ⟨0, 0, 0⟩ := by
    simp [stabilizeVisualizationPosition, emptyMemState]
  have ht : (stabilizeVisualizationPosition emptyMemState "a"
      ⟨0, 0⟩ 0).2.positionTransitions "a" = none := by
    simp [stabilizeVisualizationPosition, emptyMemState]
  rw [hp, ht]
  simp

/-- C6 (amended): in every reachable state, a transition entry implies a
position-memory entry (the converse fails right after a key's first call:
the transition entry is only created on the second call; deletions do remove
both together). -/
theorem c6_pairing_amended (s : MemState) (hs : Reachable s) (k : String) :
    (s.positionTransitions k).isSome →
      (s.previousVisualizationPositions k).isSome := by
  induction hs with
  | empty => intro h; exact absurd h (by simp [emptyMemState])
  | stabilize s0 k0 p t _ ih =>
      intro h
      cases hp : s0.previousVisualizationPositions k0 with
      | none =>
          simp only [stabilizeVisualizationPosition, hp] at h ⊢
          by_cases hk : k = k0
          · simp [hk]
          · simpa [hk] using ih h
      | some pp =>
          simp only [stabilizeVisualizationPosition, hp] at h ⊢
          by_cases hk : k = k0
          · simp [hk]
          · simp only [hk, if_false] at h ⊢
            exact ih h
  | clean s0 seen t _ ih =>
      intro h
      cases hp : s0.previousVisualizationPositions k with
      | none =>
          simp only [cleanStalePhysicalObjectPositions, hp] at h ⊢
          have := ih h
          rw [hp] at this
          exact absurd this (by simp)
      | some e =>
          simp only [cleanStalePhysicalObjectPositions, hp] at h ⊢
          by_cases hc : seen.contains k = false ∧
              t - e.lastSeen > stabilizationConfig.positionMemoryTimeout
          · rw [if_pos hc] at h
            exact absurd h (by simp)
          · rw [if_neg hc]
            simp

/-- Witness for C6's amended statement at a concretely reachable state with
both entries present (two stabilization calls on the same key). -/
theorem c6_pairing_amended_witness :
    Reachable (stabilizeVisualizationPosition
      (stabilizeVisualizationPosition emptyMemState "a" ⟨1, 2⟩ 0).2 "a"
      ⟨1, 2⟩ 3).2 ∧
    (((stabilizeVisualizationPosition
        (stabilizeVisualizationPosition emptyMemState "a" ⟨1, 2⟩ 0).2 "a"
        ⟨1, 2⟩ 3).2.positionTransitions "a").isSome →
      ((stabilizeVisualizationPosition
        (stabilizeVisualizationPosition emptyMemState "a" ⟨1, 2⟩ 0).2 "a"
        ⟨1, 2⟩ 3).2.previousVisualizationPositions "a").isSome) :=
  ⟨Reachable.stabilize _ "a" ⟨1, 2⟩ 3
     (Reachable.stabilize _ "a" ⟨1, 2⟩ 0 Reachable.empty),
   c6_pairing_amended _
     (Reachable.stabilize _ "a" ⟨1, 2⟩ 3
       (Reachable.stabilize _ "a" ⟨1, 2⟩ 0 Reachable.empty)) "a"⟩

/-- Closed form of the iterated lerp: the distance to the target shrinks by
the factor `1 − smoothingFactor = 4/5` each step. -/
theorem lerpIter_closed (c T : ℚ) (n : ℕ) :
    T - lerpIter c T n = (4/5) ^ n * (T - c) := by
  induction n with
  | zero => simp [lerpIter]
  | succ n ih =>
      have hstep : T - lerpIter c T (n + 1) = (T - lerpIter c T n) * (4/5) := by
        simp only [lerpIter, lerpStep, stabilizationConfig]
        ring
      rw [hstep, ih]
      ring

/-- JS rounding recovers an integer from any rational strictly within 1/2 of
it. -/
theorem jsRound_eq_of_close (q : ℚ) (z : ℤ) (h : |q - z| < 1/2) :
    jsRound q = z := by
  unfold jsRound
  rw [Int.floor_eq_iff]
  rw [abs_lt] at h
  constructor
  · linarith [h.1]
  · linarith [h.2]

/-- State evolution of repeated tracking-state stabilization toward a fixed
target: position memory, the transition entry, and the returned rounded
position after the `(n+1)`-th call, in terms of the iterated lerp. -/
theorem stabilizeRunN_tracking (s : MemState) (k : String) (T : Pos) (t : ℤ)
    (pp : PrevPos) (tr : Transition)
    (hp : s.previousVisualizationPositions k = some pp)
    (ht : s.positionTransitions k = some tr) (n : ℕ) :
    (stabilizeRunN s k T t n).2.previousVisualizationPositions k =
      some ⟨lerpIter tr.currentX T.x (n+1), lerpIter tr.currentY T.y (n+1), t⟩ ∧
    (stabilizeRunN s k T t n).2.positionTransitions k =
      some ⟨T.x, T.y, lerpIter tr.currentX T.x (n+1), lerpIter tr.currentY T.y (n+1)⟩ ∧
    (stabilizeRunN s k T t n).1 =
      ⟨(jsRound (lerpIter tr.currentX T.x (n+1)) : ℚ),
       (jsRound (lerpIter tr.currentY T.y (n+1)) : ℚ)⟩ := by
  induction n with
  | zero =>
      simp [stabilizeRunN, stabilizeVisualizationPosition, hp, ht,
        updatedTransition, lerpIter, lerpStep]
  | succ n ih =>
      obtain ⟨ihp, iht, _⟩ := ih
      simp [stabilizeRunN, stabilizeVisualizationPosition, ihp, iht,
        updatedTransition, lerpIter, lerpStep]

/-- Eventually the rounded iterated lerp hits an integer target. -/
theorem lerpIter_round_eventually (c : ℚ) (z : ℤ) :
    ∃ N, ∀ n ≥ N, jsRound (lerpIter c (z : ℚ) n) = z := by
  rcases eq_or_ne ((z : ℚ) - c) 0 with hd | hd
  · refine ⟨0, fun n _ => ?_⟩
    apply jsRound_eq_of_close
    have hcl := lerpIter_closed c (z : ℚ) n
    rw [hd, mul_zero] at hcl
    rw [abs_sub_comm, hcl]
    norm_num
  · have hdpos : 0 < |(z : ℚ) - c| := abs_pos.mpr hd
    obtain ⟨N, hN⟩ := exists_pow_lt_of_lt_one
      (show (0 : ℚ) < (1/2) / |(z : ℚ) - c| by positivity)
      (show (4/5 : ℚ) < 1 by norm_num)
    refine ⟨N, fun n hn => ?_⟩
    apply jsRound_eq_of_close
    have hcl := lerpIter_closed c (z : ℚ) n
    have habs : |lerpIter c (z : ℚ) n - z| = (4/5) ^ n * |(z : ℚ) - c| := by
      rw [abs_sub_comm, hcl, abs_mul, abs_pow,
        show |(4/5 : ℚ)| = 4/5 from abs_of_nonneg (by norm_num)]
    rw [habs]
    have hmono : (4/5 : ℚ) ^ n ≤ (4/5) ^ N :=
      pow_le_pow_of_le_one (by norm_num) (by norm_num) hn
    have hNlt : (4/5 : ℚ) ^ N * |(z : ℚ) - c| < 1/2 := by
      rw [← lt_div_iff₀ hdpos]
      exact hN
    calc (4/5 : ℚ) ^ n * |(z : ℚ) - c| ≤ (4/5) ^ N * |(z : ℚ) - c| :=
          mul_le_mul_of_nonneg_right hmono (le_of_lt hdpos)
      _ < 1/2 := hNlt

/-- C4 counterexample: from a tracking state with current `(0,0)` and fixed
non-integer target `(1/2, 0)`, the returned rounded position never equals
the target (each returned coordinate is an integer), refuting the claim's
unconditional "after sufficiently many calls the returned rounded position
equals T". -/
theorem c4_counterexample :
    trackingExState.previousVisualizationPositions "a" = some ⟨0, 0, 0⟩ ∧
    trackingExState.positionTransitions "a" = some ⟨0, 0, 0, 0⟩ ∧
    ¬ (∃ N, ∀ n ≥ N,
        (stabilizeRunN trackingExState "a" ⟨1/2, 0⟩ 0 n).1 = (⟨1/2, 0⟩ : Pos)) := by
  refine ⟨rfl, rfl, ?_⟩
  rintro ⟨N, hN⟩
  have hrun := stabilizeRunN_tracking trackingExState "a" ⟨1/2, 0⟩ 0
    ⟨0, 0, 0⟩ ⟨0, 0, 0, 0⟩ rfl rfl N
  have hx := congrArg Pos.x ((hrun.2.2.symm.trans (hN N le_rfl)))
  simp only at hx
  have h2 : ((2 * jsRound (lerpIter (0 : ℚ) (1/2) (N+1)) : ℤ) : ℚ) = 1 := by
    push_cast
    rw [hx]
    norm_num
  have h3 : (2 * jsRound (lerpIter (0 : ℚ) (1/2) (N+1)) : ℤ) = 1 := by
    exact_mod_cast h2
  omega

/-- C4 (amended): on a tracking-state call with transition entry `tr` and
target `T`, each axis advances by `current + (T − current) × 0.2`, the
remaining distance to `T` is multiplied by exactly `1 − 0.2`, the current
moves monotonically toward `T` without overshooting, the returned position
is the rounded advanced current; and when `T` has integer coordinates,
after sufficiently many calls with the same `T` the returned position equals
`T` (for a non-integer target the returned integer-rounded position can
never equal it, see the counterexample). -/
theorem c4_tracking_convergence (s : MemState) (k : String) (T : Pos) (t : ℤ)
    (pp : PrevPos) (tr : Transition)
    (hp : s.previousVisualizationPositions k = some pp)
    (ht : s.positionTransitions k = some tr) :
    (stabilizeVisualizationPosition s k T t).2.positionTransitions k =
      some ⟨T.x, T.y, lerpStep tr.currentX T.x, lerpStep tr.currentY T.y⟩ ∧
    T.x - lerpStep tr.currentX T.x =
      (T.x - tr.currentX) * (1 - stabilizationConfig.smoothingFactor) ∧
    T.y - lerpStep tr.currentY T.y =
      (T.y - tr.currentY) * (1 - stabilizationConfig.smoothingFactor) ∧
    (tr.currentX ≤ T.x → tr.currentX ≤ lerpStep tr.currentX T.x ∧
      lerpStep tr.currentX T.x ≤ T.x) ∧
    (T.x ≤ tr.currentX → lerpStep tr.currentX T.x ≤ tr.currentX ∧
      T.x ≤ lerpStep tr.currentX T.x) ∧
    (tr.currentY ≤ T.y → tr.currentY ≤ lerpStep tr.currentY T.y ∧
      lerpStep tr.currentY T.y ≤ T.y) ∧
    (T.y ≤ tr.currentY → lerpStep tr.currentY T.y ≤ tr.currentY ∧
      T.y ≤ lerpStep tr.currentY T.y) ∧
    (stabilizeVisualizationPosition s k T t).1 =
      ⟨(jsRound (lerpStep tr.currentX T.x) : ℚ),
       (jsRound (lerpStep tr.currentY T.y) : ℚ)⟩ ∧
    ((∃ zx : ℤ, T.x = zx) → (∃ zy : ℤ, T.y = zy) →
      ∃ N, ∀ n ≥ N, (stabilizeRunN s k T t n).1 = T) := by
  have hsf : stabilizationConfig.smoothingFactor = 1/5 := rfl
  refine ⟨?_, by simp [lerpStep]; ring, by simp [lerpStep]; ring,
    ?_, ?_, ?_, ?_, ?_, ?_⟩
  · simp [stabilizeVisualizationPosition, hp, ht, updatedTransition, lerpStep]
  · intro hle
    constructor <;> simp only [lerpStep, hsf] <;> nlinarith
  · intro hle
    constructor <;> simp only [lerpStep, hsf] <;> nlinarith
  · intro hle
    constructor <;> simp only [lerpStep, hsf] <;> nlinarith
  · intro hle
    constructor <;> simp only [lerpStep, hsf] <;> nlinarith
  · simp [stabilizeVisualizationPosition, hp, ht, updatedTransition, lerpStep]
  · rintro ⟨zx, hzx⟩ ⟨zy, hzy⟩
    obtain ⟨Nx, hNx⟩ := lerpIter_round_eventually tr.currentX zx
    obtain ⟨Ny, hNy⟩ := lerpIter_round_eventually tr.currentY zy
    refine ⟨max Nx Ny, fun n hn => ?_⟩
    have hres := (stabilizeRunN_tracking s k T t pp tr hp ht n).2.2
    rw [hres]
    have hx : jsRound (lerpIter tr.currentX T.x (n+1)) = zx := by
      rw [hzx]
      exact hNx (n+1) (le_trans (le_trans (le_max_left Nx Ny) hn) (Nat.le_succ n))
    have hy : jsRound (lerpIter tr.currentY T.y (n+1)) = zy := by
      rw [hzy]
      exact hNy (n+1) (le_trans (le_trans (le_max_right Nx Ny) hn) (Nat.le_succ n))
    rw [hx, hy, ← hzx, ← hzy]

/-- Witness for C4's amended statement: a concrete tracking state with
integer target `(10, 20)`. -/
theorem c4_tracking_convergence_witness :
    trackingExState.previousVisualizationPositions "a" = some ⟨0, 0, 0⟩ ∧
    trackingExState.positionTransitions "a" = some ⟨0, 0, 0, 0⟩ ∧
    ((stabilizeVisualizationPosition trackingExState "a"
        ⟨10, 20⟩ 7).2.positionTransitions "a" =
      some ⟨10, 20, lerpStep 0 10, lerpStep 0 20⟩ ∧
    (10 : ℚ) - lerpStep 0 10 = ((10 : ℚ) - 0) * (1 - stabilizationConfig.smoothingFactor) ∧
    (20 : ℚ) - lerpStep 0 20 = ((20 : ℚ) - 0) * (1 - stabilizationConfig.smoothingFactor) ∧
    ((0 : ℚ) ≤ 10 → (0 : ℚ) ≤ lerpStep 0 10 ∧ lerpStep 0 10 ≤ 10) ∧
    ((10 : ℚ) ≤ 0 → lerpStep 0 10 ≤ 0 ∧ (10 : ℚ) ≤ lerpStep 0 10) ∧
    ((0 : ℚ) ≤ 20 → (0 : ℚ) ≤ lerpStep 0 20 ∧ lerpStep 0 20 ≤ 20) ∧
    ((20 : ℚ) ≤ 0 → lerpStep 0 20 ≤ 0 ∧ (20 : ℚ) ≤ lerpStep 0 20) ∧
    (stabilizeVisualizationPosition trackingExState "a" ⟨10, 20⟩ 7).1 =
      ⟨(jsRound (lerpStep 0 10) : ℚ), (jsRound (lerpStep 0 20) : ℚ)⟩ ∧
    ((∃ zx : ℤ, (10 : ℚ) = zx) → (∃ zy : ℤ, (20 : ℚ) = zy) →
      ∃ N, ∀ n ≥ N,
        (stabilizeRunN trackingExState "a" ⟨10, 20⟩ 7 n).1 = (⟨10, 20⟩ : Pos))) :=
  ⟨rfl, rfl,
   c4_tracking_convergence trackingExState "a" ⟨10, 20⟩ 7 ⟨0, 0, 0⟩
     ⟨0, 0, 0, 0⟩ rfl rfl⟩

/-- Witness for C1 at the C9 scenario's `right` candidate with empty
memory. -/
theorem c1_score_formula_witness :
    ((0:ℚ) ≤ 160 ∧ (0:ℚ) ≤ 45 ∧ (160:ℚ) + 100 ≤ 640 ∧ (45:ℚ) + 160 ≤ 480) ∧
    scorePosition handC9 100 160 allC9 640 480
        (emptyMemState.previousVisualizationPositions handC9.id) "right" ⟨160, 45⟩ =
      (if "right" = "top" then (100 : ℝ) else 0)
      + (if ∃ pp, emptyMemState.previousVisualizationPositions handC9.id = some pp ∧
            Real.sqrt ((((160:ℚ) : ℝ) - (pp.x : ℝ))^2 + (((45:ℚ) : ℝ) - (pp.y : ℝ))^2) < 50
          then (150 : ℝ) else 0)
      - 10 * ((allC9.faces.map fun face =>
          (calculateIntersectionArea ⟨160, 45, 100, 160⟩ face : ℝ)).sum)
      - 5 * (((allC9.physicalObjects.filter fun o =>
            decide (o.ref ≠ handC9.ref)).map fun o =>
          (calculateIntersectionArea ⟨160, 45, 100, 160⟩ o.toRect : ℝ)).sum)
      - 5 * ((allC9.visualizations.map fun v =>
          (calculateIntersectionArea ⟨160, 45, 100, 160⟩ v : ℝ)).sum)
      - 0.1 * Real.sqrt
          ((((handC9.x + handC9.width/2 : ℚ) : ℝ) - (((160:ℚ) + 100/2 : ℚ) : ℝ))^2 +
           (((handC9.y + handC9.height/2 : ℚ) : ℝ) - (((45:ℚ) + 160/2 : ℚ) : ℝ))^2) :=
  ⟨⟨by norm_num, by norm_num, by norm_num, by norm_num⟩,
   c1_score_formula emptyMemState handC9 100 160 allC9 640 480 "right" ⟨160, 45⟩
     (by norm_num) (by norm_num) (by norm_num) (by norm_num)⟩

/-- The `right` candidate of the C9 scenario scores exactly
`0 − 0.1 × 85 = −8.5`. -/
theorem scoreC9_right :
    scorePosition handC9 100 160 allC9 640 480 none "right" ⟨160, 45⟩ = -(17/2) := by
  rw [scorePosition_in_bounds handC9 100 160 allC9 640 480 none "right" ⟨160, 45⟩
    (by norm_num) (by norm_num) (by norm_num) (by norm_num)]
  rw [if_neg (show ¬("right" = "top") by decide)]
  rw [if_neg (show ¬ ∃ pp, (none : Option PrevPos) = some pp ∧
      Real.sqrt ((((160:ℚ) : ℝ) - (pp.x : ℝ))^2 + (((45:ℚ) : ℝ) - (pp.y : ℝ))^2) < 50 by
    rintro ⟨pp, hpp, -⟩
    exact Option.noConfusion hpp)]
  simp [allC9, handC9]
  rw [show ((100:ℝ) + 50/2 - (160 + 100/2))^2 + ((100:ℝ) + 50/2 - (45 + 160/2))^2 = 85^2 by
    norm_num]
  rw [Real.sqrt_sq (by norm_num : (0:ℝ) ≤ 85)]
  norm_num

/-- The `bottom` candidate of the C9 scenario scores `−0.1 × 115 = −11.5`. -/
theorem scoreC9_bottom :
    scorePosition handC9 100 160 allC9 640 480 none "bottom" ⟨75, 160⟩ = -(23/2) := by
  rw [scorePosition_in_bounds handC9 100 160 allC9 640 480 none "bottom" ⟨75, 160⟩
    (by norm_num) (by norm_num) (by norm_num) (by norm_num)]
  rw [if_neg (show ¬("bottom" = "top") by decide)]
  rw [if_neg (show ¬ ∃ pp, (none : Option PrevPos) = some pp ∧
      Real.sqrt ((((75:ℚ) : ℝ) - (pp.x : ℝ))^2 + (((160:ℚ) : ℝ) - (pp.y : ℝ))^2) < 50 by
    rintro ⟨pp, hpp, -⟩
    exact Option.noConfusion hpp)]
  simp [allC9, handC9]
  rw [show ((100:ℝ) + 50/2 - (75 + 100/2))^2 + ((100:ℝ) + 50/2 - (160 + 160/2))^2 = 115^2 by
    norm_num]
  rw [Real.sqrt_sq (by norm_num : (0:ℝ) ≤ 115)]
  norm_num

/-- The `bottomRight` candidate of the C9 scenario scores
`−0.1 × √20450 < −8.5`. -/
theorem scoreC9_bottomRight_lt :
    scorePosition handC9 100 160 allC9 640 480 none "bottomRight" ⟨160, 160⟩ < -(17/2) := by
  rw [scorePosition_in_bounds handC9 100 160 allC9 640 480 none "bottomRight" ⟨160, 160⟩
    (by norm_num) (by norm_num) (by norm_num) (by norm_num)]
  rw [if_neg (show ¬("bottomRight" = "top") by decide)]
  rw [if_neg (show ¬ ∃ pp, (none : Option PrevPos) = some pp ∧
      Real.sqrt ((((160:ℚ) : ℝ) - (pp.x : ℝ))^2 + (((160:ℚ) : ℝ) - (pp.y : ℝ))^2) < 50 by
    rintro ⟨pp, hpp, -⟩
    exact Option.noConfusion hpp)]
  simp [allC9, handC9]
  rw [show ((100:ℝ) + 50/2 - (160 + 100/2))^2 + ((100:ℝ) + 50/2 - (160 + 160/2))^2 = 20450 by
    norm_num]
  have h2 : (85:ℝ) < Real.sqrt 20450 := by
    have h3 : (85:ℝ) = Real.sqrt (85^2) := (Real.sqrt_sq (by norm_num : (0:ℝ) ≤ 85)).symm
    rw [h3]
    apply Real.sqrt_lt_sqrt (by norm_num)
    norm_num
  linarith

/-- A fold keeping the accumulator whenever no later candidate beats it
returns the accumulator: the earliest maximal-score candidate wins. -/
theorem selectBest_all_le (b : ScoredPosition) :
    ∀ l : List ScoredPosition, (∀ c ∈ l, ¬ c.score > b.score) → selectBest b l = b := by
  intro l
  induction l with
  | nil => intro _; rfl
  | cons c rest ih =>
      intro hall
      rw [selectBest, if_neg (hall c (List.mem_cons_self c rest))]
      exact ih (fun c' hc' => hall c' (List.mem_cons_of_mem c hc'))

/-- C9: in the concrete scenario (hand `(100,100,50,50)`, marker 100×160,
canvas 640×480, no faces or visualizations, the hand the only physical
object, no previous position), the `right` candidate is generated at
`(160, 45)` and scores `−8.5`, the `top` candidate at `(75, −70)` and the
`left` candidate each take the sentinel `−1000`, and the function returns
the `right` candidate's rectangle. -/
theorem c9_scenario :
    (candidatePositions 100 160 handC9).head? = some ("right", ⟨160, 45⟩) ∧
    (candidatePositions 100 160 handC9)[2]? = some ("top", ⟨75, -70⟩) ∧
    scorePosition handC9 100 160 allC9 640 480 none "right" ⟨160, 45⟩ = -(17/2) ∧
    scorePosition handC9 100 160 allC9 640 480 none "top" ⟨75, -70⟩ = -1000 ∧
    scorePosition handC9 100 160 allC9 640 480 none "left" ⟨-10, 45⟩ = -1000 ∧
    findOptimalVisualizationPosition emptyMemState.previousVisualizationPositions
      handC9 100 160 allC9 640 480 = some ⟨160, 45, 100, 160⟩ := by
  have hT : scorePosition handC9 100 160 allC9 640 480 none "top" ⟨75, -70⟩ = -1000 :=
    scorePosition_oob _ _ _ _ _ _ _ _ _ (Or.inr (Or.inl (by norm_num)))
  have hL : scorePosition handC9 100 160 allC9 640 480 none "left" ⟨-10, 45⟩ = -1000 :=
    scorePosition_oob _ _ _ _ _ _ _ _ _ (Or.inl (by norm_num))
  have hTR : scorePosition handC9 100 160 allC9 640 480 none "topRight" ⟨160, -70⟩ = -1000 :=
    scorePosition_oob _ _ _ _ _ _ _ _ _ (Or.inr (Or.inl (by norm_num)))
  have hTL : scorePosition handC9 100 160 allC9 640 480 none "topLeft" ⟨-10, -70⟩ = -1000 :=
    scorePosition_oob _ _ _ _ _ _ _ _ _ (Or.inl (by norm_num))
  have hBL : scorePosition handC9 100 160 allC9 640 480 none "bottomLeft" ⟨-10, 160⟩ = -1000 :=
    scorePosition_oob _ _ _ _ _ _ _ _ _ (Or.inl (by norm_num))
  refine ⟨by norm_num [candidatePositions, handC9], by norm_num [candidatePositions, handC9],
    scoreC9_right, hT, hL, ?_⟩
  simp only [findOptimalVisualizationPosition, positionScores, candidatePositions,
    List.map_cons, List.map_nil, emptyMemState]
  norm_num only [handC9]
  simp only [(show (⟨0, "Left_0", 100, 100, 50, 50⟩ : PhysObject) = handC9 from rfl)]
  rw [scoreC9_right, hL, hT, scoreC9_bottom, hTR, hTL, hBL]
  rw [selectBest_all_le _ _ ?hall]
  case hall =>
    intro c hc
    simp only [List.mem_cons, List.not_mem_nil, or_false] at hc
    rcases hc with rfl | rfl | rfl | rfl | rfl | rfl | rfl
    · norm_num
    · norm_num
    · norm_num
    · norm_num
    · norm_num
    · exact not_lt.mpr (le_of_lt scoreC9_bottomRight_lt)
    · norm_num

/-- C3: in the all-out-of-bounds scenario every one of the eight candidates
scores the sentinel `−1000`, which is below the `−500` viability threshold,
yet `findOptimalVisualizationPosition` still returns the best candidate's
(off-canvas) rectangle rather than a distinguished absence, and the caller
consequently draws the marker and appends it to the frame's visualizations —
the threshold check present in the repository's algorithm documentation
(`optimal-positioning-algorithm-docs.md`: return `null` when the best score
is below −500) is missing from `app.js`. -/
theorem c3_missing_threshold :
    ((positionScores none handC3 100 160 allC3 100 100).map fun c => c.score) =
      List.replicate 8 (-1000 : ℝ) ∧
    (-1000 : ℝ) < -500 ∧
    findOptimalVisualizationPosition emptyMemState.previousVisualizationPositions
      handC3 100 160 allC3 100 100 = some ⟨40, -65, 100, 160⟩ ∧
    (placeVisualizationForHand emptyMemState [] handC3 allC3 100 100 0).1 =
      [⟨40, -65, 100, 160⟩] := by
  have hR : scorePosition handC3 100 160 allC3 100 100 none "right" ⟨40, -65⟩ = -1000 :=
    scorePosition_oob _ _ _ _ _ _ _ _ _ (Or.inr (Or.inl (by norm_num)))
  have hL : scorePosition handC3 100 160 allC3 100 100 none "left" ⟨-110, -65⟩ = -1000 :=
    scorePosition_oob _ _ _ _ _ _ _ _ _ (Or.inl (by norm_num))
  have hT : scorePosition handC3 100 160 allC3 100 100 none "top" ⟨-35, -170⟩ = -1000 :=
    scorePosition_oob _ _ _ _ _ _ _ _ _ (Or.inl (by norm_num))
  have hB : scorePosition handC3 100 160 allC3 100 100 none "bottom" ⟨-35, 40⟩ = -1000 :=
    scorePosition_oob _ _ _ _ _ _ _ _ _ (Or.inl (by norm_num))
  have hTR : scorePosition handC3 100 160 allC3 100 100 none "topRight" ⟨40, -170⟩ = -1000 :=
    scorePosition_oob _ _ _ _ _ _ _ _ _ (Or.inr (Or.inl (by norm_num)))
  have hTL : scorePosition handC3 100 160 allC3 100 100 none "topLeft" ⟨-110, -170⟩ = -1000 :=
    scorePosition_oob _ _ _ _ _ _ _ _ _ (Or.inl (by norm_num))
  have hBR : scorePosition handC3 100 160 allC3 100 100 none "bottomRight" ⟨40, 40⟩ = -1000 :=
    scorePosition_oob _ _ _ _ _ _ _ _ _ (Or.inr (Or.inr (Or.inl (by norm_num))))
  have hBL : scorePosition handC3 100 160 allC3 100 100 none "bottomLeft" ⟨-110, 40⟩ = -1000 :=
    scorePosition_oob _ _ _ _ _ _ _ _ _ (Or.inl (by norm_num))
  have hfind : findOptimalVisualizationPosition
      emptyMemState.previousVisualizationPositions handC3 100 160 allC3 100 100 =
      some ⟨40, -65, 100, 160⟩ := by
    simp only [findOptimalVisualizationPosition, positionScores, candidatePositions,
      List.map_cons, List.map_nil, emptyMemState]
    norm_num only [handC3]
    simp only [(show (⟨0, "Left_0", 0, 0, 30, 30⟩ : PhysObject) = handC3 from rfl)]
    rw [hR, hL, hT, hB, hTR, hTL, hBR, hBL]
    rw [selectBest_all_le _ _ ?hall]
    case hall =>
      intro c hc
      simp only [List.mem_cons, List.not_mem_nil, or_false] at hc
      rcases hc with rfl | rfl | rfl | rfl | rfl | rfl | rfl
      all_goals norm_num
  refine ⟨?_, by norm_num, hfind, ?_⟩
  · simp only [positionScores, candidatePositions, List.map_cons, List.map_nil]
    norm_num only [handC3]
    simp only [(show (⟨0, "Left_0", 0, 0, 30, 30⟩ : PhysObject) = handC3 from rfl)]
    rw [hR, hL, hT, hB, hTR, hTL, hBR, hBL]
    rfl
  · simp only [placeVisualizationForHand, visualizationConfig]
    rw [hfind]
    simp [stabilizeVisualizationPosition, emptyMemState, handC3]

end PlacementAlgo
